import Mathlib

/-!
# tee_test: dynamic attachment of branches to a live `tee`

A shallow embedding of `src/main.c`.  Every C function of the file is
translated to a Lean function over an explicit state:

* the statics `loop` and `error` become the record `Globals`;
* `gint` counters kept as object data (`"branches-count"`, `"buffers-count"`)
  are `Option Int` (`none` when `g_object_get_data` yields `NULL`), and the
  atomic add / decrement wrap around at 32 bits (`wrap32`);
* the answers of the streaming engine that the code cannot control (is the
  parent of a pad still there, did a link succeed, is a source id still
  attached) are explicit inputs.

Logging (`GST_DEBUG`, `GST_ERROR`, ...) and the dot-file dumps change none of
the modelled state and are left out.
-/

namespace TeeTest

/-! ## Constants -/

/-- The value of `TIMES`, the default of the option `number-times`. -/
def TIMES : Int := 100000

/-- The value of `N_BRANCHES`. -/
def N_BRANCHES : Int := 200

/-- The value of `NUM_BUFFERS`. -/
def NUM_BUFFERS : Int := 20

/-- Two's complement wrap-around of a 32 bit `gint`. -/
def wrap32 (x : Int) : Int := (x + 2147483648) % 4294967296 - 2147483648

/-! ## The statics `loop` and `error` -/

/-- The `GMainLoop`: its running flag, and (as a ghost field) how often
`g_main_loop_quit` has been called on it. -/
structure GMainLoop where
  is_running : Bool
  quit_calls : Nat
deriving DecidableEq, Repr

/-- The file-level statics: `static GMainLoop *loop` and `static guint error`. -/
structure Globals where
  loop : GMainLoop
  error : Nat
deriving DecidableEq, Repr

/-- What `g_main_loop_quit (loop)` does to the loop. -/
def g_main_loop_quit (l : GMainLoop) : GMainLoop :=
  { is_running := false, quit_calls := l.quit_calls + 1 }

/-- The statics as `main` leaves them just before its first iteration:
`error = 0` and `loop = g_main_loop_new (NULL, TRUE)`. -/
def Globals.init : Globals :=
  { loop := { is_running := true, quit_calls := 0 }, error := 0 }

/-- Return values of a `GSourceFunc`. -/
def G_SOURCE_CONTINUE : Bool := true

/-- Return value of a `GSourceFunc` that detaches the source. -/
def G_SOURCE_REMOVE : Bool := false

/-! ## `timeout_check` -/

/-- The watchdog callback `timeout_check`: sets `error`, quits the loop and
returns `G_SOURCE_CONTINUE`, so the source stays attached. -/
def timeout_check (g : Globals) : Globals × Bool :=
  ({ loop := g_main_loop_quit g.loop, error := 1 }, G_SOURCE_CONTINUE)

/-! ## `bus_message` -/

/-- The type of a bus message, as far as the switch of `bus_message`
distinguishes it; `OTHER` stands for every other `GstMessageType`. -/
inductive GstMessageType where
  | ERROR
  | WARNING
  | EOS
  | OTHER (code : Nat)
deriving DecidableEq, Repr

/-- The bus callback `bus_message`. -/
def bus_message (msg : GstMessageType) (g : Globals) : Globals :=
  match msg with
  | GstMessageType.ERROR => { loop := g_main_loop_quit g.loop, error := 1 }
  | GstMessageType.WARNING => g
  | GstMessageType.EOS => { g with loop := g_main_loop_quit g.loop }
  | GstMessageType.OTHER _ => g

/-! ## `check_pipeline_termination` -/

/-- Result of `check_pipeline_termination`: the `"branches-count"` data
afterwards, the statics afterwards and the returned `gboolean`. -/
structure CheckResult where
  count : Option Int
  g : Globals
  ret : Bool
deriving DecidableEq, Repr

/-- The idle callback `check_pipeline_termination`.  `count` is the
`"branches-count"` data of the pipeline; `g_atomic_int_dec_and_test`
decrements it and tells whether the new value is zero. -/
def check_pipeline_termination (count : Option Int) (g : Globals) : CheckResult :=
  match count with
  | none => { count := none, g := g, ret := false }
  | some c =>
    let c1 := wrap32 (c - 1)
    if c1 = 0 then
      { count := some c1, g := { g with loop := g_main_loop_quit g.loop }, ret := false }
    else
      { count := some c1, g := g, ret := false }

/-! ## `new_sample` -/

/-- The `GstFlowReturn` values the program uses. -/
inductive GstFlowReturn where
  | GST_FLOW_OK
deriving DecidableEq, Repr

/-- Result of `new_sample`: the `"buffers-count"` data of the appsink
afterwards, whether `g_idle_add_full (G_PRIORITY_HIGH,
check_pipeline_termination, ...)` was called, and the returned flow. -/
structure SampleResult where
  count : Option Int
  scheduled : Bool
  ret : GstFlowReturn
deriving DecidableEq, Repr

/-- The appsink callback `new_sample`, with the constant `NUM_BUFFERS` as the
parameter `quota`.  A missing counter is allocated zeroed (`g_malloc0`);
`g_atomic_int_add (count, 1)` adds one and returns the value the counter had
before the addition, and it is that value which is compared with the quota. -/
def new_sample (quota : Int) (count : Option Int) : SampleResult :=
  let c := match count with
    | none => 0
    | some c => c
  let old := c
  { count := some (wrap32 (c + 1)),
    scheduled := decide (old = quota),
    ret := GstFlowReturn.GST_FLOW_OK }

/-- The outcome of delivering `n` units in a row to one appsink whose counter
data is `count`: for each unit, whether it scheduled a completion check. -/
def deliver (quota : Int) : Nat → Option Int → List Bool
  | 0, _ => []
  | n + 1, count =>
    let r := new_sample quota count
    r.scheduled :: deliver quota n r.count

/-! ## `link_to_tee` -/

/-- Return values of a pad probe.  Both let the blocked data item through:
`GST_PAD_PROBE_PASS` keeps the probe, `GST_PAD_PROBE_REMOVE` removes it. -/
inductive GstPadProbeReturn where
  | GST_PAD_PROBE_PASS
  | GST_PAD_PROBE_REMOVE
deriving DecidableEq, Repr

/-- A request pad of the tee: its name, the element it is linked to (if any)
and the object data `"linking"`. -/
structure GstPad where
  name : String
  peer : Option String
  linking : Bool
deriving DecidableEq, Repr

/-- What the engine answers during one call of the probe:
`gst_pad_get_parent_element (pad)` (`none` for `NULL`) and whether
`gst_element_link_pads` manages to link (its result is not looked at by the
code). -/
structure LinkEnv where
  parent : Option String
  link_ok : Bool
deriving DecidableEq, Repr

/-- Result of one call of `link_to_tee`: the pad afterwards, the returned
value and (ghost) how often `gst_element_link_pads` was executed. -/
structure ProbeResult where
  pad : GstPad
  ret : GstPadProbeReturn
  link_calls : Nat
deriving DecidableEq, Repr

/-- The engine's `gst_pad_is_linked`. -/
def gst_pad_is_linked (pad : GstPad) : Bool := pad.peer.isSome

/-- The engine's `gst_element_link_pads (tee, pad, queue, NULL)` seen from the
pad: on success the pad's peer is the queue. -/
def gst_element_link_pads (pad : GstPad) (queue : String) (link_ok : Bool) : GstPad :=
  if link_ok then { pad with peer := some queue } else pad

/-- The blocking probe `link_to_tee`, `queue` being its user data. -/
def link_to_tee (pad : GstPad) (queue : String) (env : LinkEnv) : ProbeResult :=
  if gst_pad_is_linked pad then
    { pad := pad, ret := GstPadProbeReturn.GST_PAD_PROBE_PASS, link_calls := 0 }
  else if pad.linking then
    { pad := pad, ret := GstPadProbeReturn.GST_PAD_PROBE_PASS, link_calls := 0 }
  else
    let pad1 : GstPad := { pad with linking := true }
    match env.parent with
    | none => { pad := pad1, ret := GstPadProbeReturn.GST_PAD_PROBE_PASS, link_calls := 0 }
    | some _ =>
      { pad := gst_element_link_pads pad1 queue env.link_ok,
        ret := GstPadProbeReturn.GST_PAD_PROBE_REMOVE,
        link_calls := 1 }

/-- A finite sequence of invocations of `link_to_tee` on one pad, one engine
answer per invocation: the pad at the end and the total number of executed
structural link calls. -/
def probe_run (queue : String) : GstPad → List LinkEnv → GstPad × Nat
  | pad, [] => (pad, 0)
  | pad, env :: envs =>
    let r := link_to_tee pad queue env
    let rest := probe_run queue r.pad envs
    (rest.1, r.link_calls + rest.2)

/-! ## `connect_branch` -/

/-- An element of the pipeline: its name and the factory that made it. -/
structure GstElement where
  name : String
  factory : String
deriving DecidableEq, Repr

/-- A blocking probe installed with `gst_pad_add_probe`: the pad it sits on
and its user data (the queue, on which it holds a reference). -/
structure BlockingProbe where
  pad : String
  queue : String
deriving DecidableEq, Repr

/-- The pipeline as a bin: its children, the links between them, the request
pads handed out by the tee, the installed blocking probes and the number of
elements named automatically so far. -/
structure Pipeline where
  children : List GstElement
  links : List (String × String)
  tee_pads : List String
  probes : List BlockingProbe
  serial : Nat
deriving DecidableEq, Repr

/-- The engine's `gst_bin_get_by_name`. -/
def gst_bin_get_by_name (p : Pipeline) (name : String) : Option GstElement :=
  p.children.find? (fun e => e.name == name)

/-- The engine's `gst_element_factory_make (factory, NULL)`: a fresh
element, named after the factory and a serial number. -/
def gst_element_factory_make (factory : String) (serial : Nat) : GstElement :=
  { name := factory ++ toString serial, factory := factory }

/-- Result of `connect_branch`. -/
structure ConnectResult where
  pipeline : Pipeline
  g : Globals
  ret : Bool
deriving DecidableEq, Repr

/-- The timeout callback `connect_branch`. -/
def connect_branch (p : Pipeline) (g : Globals) : ConnectResult :=
  match gst_bin_get_by_name p "tee" with
  | none => { pipeline := p, g := { g with error := 1 }, ret := G_SOURCE_REMOVE }
  | some _ =>
    let queue := gst_element_factory_make "queue" p.serial
    let sink := gst_element_factory_make "appsink" (p.serial + 1)
    let tee_src := "src_" ++ toString p.tee_pads.length
    { pipeline :=
        { children := p.children ++ [queue, sink],
          links := p.links ++ [(queue.name, sink.name)],
          tee_pads := p.tee_pads ++ [tee_src],
          probes := p.probes ++ [{ pad := tee_src, queue := queue.name }],
          serial := p.serial + 2 },
      g := g,
      ret := G_SOURCE_REMOVE }

/-! ## `execute_test` -/

/-- The two pipeline states the program asks for. -/
inductive GstState where
  | GST_STATE_NULL
  | GST_STATE_PLAYING
deriving DecidableEq, Repr

/-- The state of one iteration of `execute_test`: the statics, the ids of the
sources attached to the default main context and the next id it hands out,
the state of the pipeline, whether the signal watch is on the bus, whether the
references on the bus and on the pipeline have been released, and the
`"branches-count"` data. -/
structure Iteration where
  g : Globals
  sources : List Nat
  next_id : Nat
  pipeline_state : GstState
  bus_watch : Bool
  bus_released : Bool
  pipeline_released : Bool
  branches_count : Option Int
deriving DecidableEq, Repr

/-- Attaching a timeout source (`g_timeout_add`, `g_timeout_add_seconds`):
the new main-context part of the state and the id of the source. -/
def g_timeout_add (it : Iteration) : Iteration × Nat :=
  ({ it with sources := it.sources ++ [it.next_id], next_id := it.next_id + 1 }, it.next_id)

/-- The main context's `g_source_remove`: the sources left and whether the id
was found. -/
def g_source_remove (sources : List Nat) (id : Nat) : List Nat × Bool :=
  (sources.erase id, decide (id ∈ sources))

/-- The loop `for (i = 1; i < N_BRANCHES; i++) g_timeout_add (500,
connect_branch, pipeline)`, `n` being the number of rounds left. -/
def add_connect_timeouts : Nat → Iteration → Iteration
  | 0, it => it
  | n + 1, it => add_connect_timeouts n (g_timeout_add it).1

/-- The part of `execute_test` up to `g_main_loop_run`, for a bus that is not
`NULL`: the state in which the loop is entered and the id of the watchdog. -/
def execute_test_setup (branches : Int) (g : Globals) (sources : List Nat) (next_id : Nat) :
    Iteration × Nat :=
  let it0 : Iteration :=
    { g := g, sources := sources, next_id := next_id,
      pipeline_state := GstState.GST_STATE_NULL,
      bus_watch := true, bus_released := false, pipeline_released := false,
      branches_count := some branches }
  let it1 := add_connect_timeouts (branches - 1).toNat it0
  let it2 : Iteration := { it1 with pipeline_state := GstState.GST_STATE_PLAYING }
  g_timeout_add it2

/-- The part of `execute_test` after `g_main_loop_run` has returned, `it`
being the state the loop left behind. -/
def execute_test_teardown (timeout_id : Nat) (it : Iteration) : Iteration :=
  let r := g_source_remove it.sources timeout_id
  if !r.2 then
    { it with sources := r.1, g := { it.g with error := 1 } }
  else
    { it with
      sources := r.1,
      pipeline_state := GstState.GST_STATE_NULL,
      bus_watch := false,
      bus_released := true,
      pipeline_released := true }

/-- The function `execute_test`.  `bus_ok` tells whether
`gst_pipeline_get_bus` gave a bus, and `main_loop_run` is what happened while
`g_main_loop_run (loop)` was running (the callbacks it dispatched and what the
engine did meanwhile). -/
def execute_test (branches : Int) (bus_ok : Bool) (main_loop_run : Iteration → Iteration)
    (g : Globals) (sources : List Nat) (next_id : Nat) : Iteration :=
  if !bus_ok then
    { g := { g with error := 1 }, sources := sources, next_id := next_id,
      pipeline_state := GstState.GST_STATE_NULL,
      bus_watch := false, bus_released := false, pipeline_released := false,
      branches_count := none }
  else
    let s := execute_test_setup branches g sources next_id
    execute_test_teardown s.2 (main_loop_run s.1)

/-- The watchdog firing inside the loop: `timeout_check` runs on the statics
and, as it returns `G_SOURCE_CONTINUE`, its source stays attached. -/
def dispatch_timeout (timeout_id : Nat) (it : Iteration) : Iteration :=
  let r := timeout_check it.g
  { it with
    g := r.1,
    sources := if r.2 then it.sources else it.sources.erase timeout_id }

/-! ## `main` -/

/-- The effect of one call of `execute_test` on the statics, as far as `main`
looks at it: every write to `error` in the program stores 1, so an iteration
either leaves the flag as it was or leaves it set. -/
def run_iteration (fails : Bool) (g : Globals) : Globals :=
  if fails then { g with error := 1 } else g

/-- Result of `main`: the indices `execute_test` was called with, in order,
and the exit status. -/
structure MainResult where
  executed : List Int
  status : Nat
deriving DecidableEq, Repr

/-- The loop `while (count < times && !g_atomic_int_get (&error))
execute_test (count++)` of `main`, with `fuel` bounding the number of rounds;
`fails i` tells whether iteration `i` leaves the error flag set. -/
def main_while (times : Int) (fails : Int → Bool) :
    Nat → Int → Globals → List Int → Int × Globals × List Int
  | 0, count, g, done => (count, g, done)
  | fuel + 1, count, g, done =>
    if count < times ∧ g.error = 0 then
      main_while times fails fuel (count + 1) (run_iteration (fails count) g) (done ++ [count])
    else
      (count, g, done)

/-- The function `main`: `parse_ok` is the result of `g_option_context_parse`,
`times` the value of the option `number-times` after parsing.  The loop needs
at most `times` rounds, which is the fuel it is given. -/
def main (parse_ok : Bool) (times : Int) (fails : Int → Bool) : MainResult :=
  if !parse_ok then
    { executed := [], status := 1 }
  else
    let r := main_while times fails times.toNat 0 Globals.init []
    { executed := r.2.2, status := r.2.1.error }

/-! ## A whole run: appsinks, idle sources and the completion counter -/

/-- The state of a run as far as completion is concerned: the statics, the
`"branches-count"` data of the pipeline, the `"buffers-count"` data of each
appsink, the number of pending `check_pipeline_termination` idle sources and
(ghost) the values the remaining-branches counter has taken. -/
structure RunState where
  g : Globals
  branches_count : Option Int
  sinks : List (Option Int)
  idle : Nat
  observed : List Int
deriving DecidableEq, Repr

/-- What can happen in a run: a unit reaches the appsink of a branch (the
engine calls `new_sample` on it), or the main loop dispatches one pending idle
source. -/
inductive Event where
  | unit (branch : Nat)
  | dispatch
deriving DecidableEq, Repr

/-- The state in which a run with `branches` branches starts. -/
def RunState.start (branches : Nat) : RunState :=
  { g := Globals.init,
    branches_count := some (branches : Int),
    sinks := List.replicate branches none,
    idle := 0,
    observed := [(branches : Int)] }

/-- One event of a run. -/
def RunState.step (quota : Int) (s : RunState) : Event → RunState
  | Event.unit i =>
    match s.sinks[i]? with
    | none => s
    | some count =>
      let r := new_sample quota count
      { s with
        sinks := s.sinks.set i r.count,
        idle := if r.scheduled then s.idle + 1 else s.idle }
  | Event.dispatch =>
    if s.idle = 0 then s
    else
      let r := check_pipeline_termination s.branches_count s.g
      { s with
        g := r.g,
        branches_count := r.count,
        idle := s.idle - 1,
        observed := s.observed ++ r.count.toList }

/-- A sequence of events, from left to right. -/
def RunState.run (quota : Int) (s : RunState) (evs : List Event) : RunState :=
  evs.foldl (RunState.step quota) s

/-- Dispatching every idle source that is still pending. -/
def RunState.drain (quota : Int) (s : RunState) : RunState :=
  s.run quota (List.replicate s.idle Event.dispatch)

/-- The state after `k` calls of `check_pipeline_termination` in a row. -/
def check_calls : Nat → Option Int → Globals → CheckResult
  | 0, count, g => { count := count, g := g, ret := false }
  | k + 1, count, g =>
    let r := check_calls k count g
    check_pipeline_termination r.count r.g

/-- Whether the `k`-th call (`k ≥ 1`) of `check_pipeline_termination`, counted
from a counter holding `b` and statics `g`, asks the loop to stop. -/
def kth_call_quits (b : Int) (g : Globals) (k : Nat) : Bool :=
  decide ((check_calls k (some b) g).g.loop.quit_calls
    = (check_calls (k - 1) (some b) g).g.loop.quit_calls + 1)

/-! ## Notions used to state properties of whole runs -/

/-- The value of a `"buffers-count"` datum, a missing one counting as zero
(it is allocated zeroed on first use). -/
def counter_value (count : Option Int) : Int := count.getD 0

/-- The number of appsinks whose counter has passed the quota. -/
def fired (quota : Int) (sinks : List (Option Int)) : Nat :=
  sinks.countP (fun c => decide (quota < counter_value c))

/-- The values `b, b - 1, ..., b - d`. -/
def countdown (b : Int) (d : Nat) : List Int :=
  (List.range (d + 1)).map (fun k : Nat => b - (k : Int))

/-- Every appsink counter of `s` is non-negative and, together with the units
that `evs` still delivers to its branch, stays within `limit`. -/
def within_budget (limit : Int) (s : RunState) (evs : List Event) : Prop :=
  ∀ (i : Nat) (cnt : Option Int), s.sinks[i]? = some cnt →
    0 ≤ counter_value cnt ∧
    counter_value cnt + ((evs.count (Event.unit i) : Nat) : Int) ≤ limit

/-- The invariant of a run with `branches` branches after `d` dispatched
completion checks: pending and dispatched checks together are the appsinks
that passed the quota, the remaining-branches counter is `branches - d` and has
run through `branches, ..., branches - d`, and the loop has been quit exactly
if `d = branches`. -/
structure RunInv (quota : Int) (branches : Nat) (s : RunState) (d : Nat) : Prop where
  idle_eq : s.idle + d = fired quota s.sinks
  count_eq : s.branches_count = some ((branches : Int) - (d : Int))
  observed_eq : s.observed = countdown (branches : Int) d
  g_eq : s.g = if d = branches
    then { loop := g_main_loop_quit Globals.init.loop, error := 0 } else Globals.init
  length_eq : s.sinks.length = branches

/-- Three rounds of one unit for each of five branches, in turn. -/
def three_rounds_of_five : List Event :=
  [Event.unit 0, Event.unit 1, Event.unit 2, Event.unit 3, Event.unit 4,
   Event.unit 0, Event.unit 1, Event.unit 2, Event.unit 3, Event.unit 4,
   Event.unit 0, Event.unit 1, Event.unit 2, Event.unit 3, Event.unit 4]

/-- Four units for each of five branches, with dispatches of the main loop in
between. -/
def four_rounds_of_five : List Event :=
  [Event.unit 0, Event.unit 1, Event.unit 2, Event.unit 3, Event.unit 4,
   Event.unit 4, Event.unit 3, Event.unit 2, Event.unit 1, Event.unit 0,
   Event.dispatch,
   Event.unit 0, Event.unit 0, Event.unit 1, Event.unit 1, Event.unit 2,
   Event.dispatch, Event.dispatch,
   Event.unit 2, Event.unit 3, Event.unit 3, Event.unit 4, Event.unit 4]

/-! ## Arithmetic of the 32 bit counters -/

/-- A value in the range of a `gint` is not changed by the wrap-around. -/
theorem wrap32_id (x : Int) (h0 : -2147483648 ≤ x) (h1 : x ≤ 2147483647) : wrap32 x = x := by
  unfold wrap32; omega

/-- Decrementing a wrapped value is decrementing the value and wrapping once. -/
theorem wrap32_wrap32_sub (x : Int) : wrap32 (wrap32 x - 1) = wrap32 (x - 1) := by
  unfold wrap32; omega

/-- A value wraps to zero exactly if it is a multiple of `2^32`. -/
theorem wrap32_eq_zero_iff (x : Int) : wrap32 x = 0 ↔ x % 4294967296 = 0 := by
  unfold wrap32; omega

/-! ## `check_pipeline_termination` -/

/-- The counter after one call of `check_pipeline_termination`. -/
theorem check_pipeline_termination_count (c : Int) (g : Globals) :
    (check_pipeline_termination (some c) g).count = some (wrap32 (c - 1)) := by
  unfold check_pipeline_termination
  by_cases h : wrap32 (c - 1) = 0 <;> simp [h]

/-- One call of `check_pipeline_termination` quits the loop exactly if the
decremented counter is zero. -/
theorem check_pipeline_termination_quits (c : Int) (g : Globals) :
    (check_pipeline_termination (some c) g).g.loop.quit_calls
      = g.loop.quit_calls + (if wrap32 (c - 1) = 0 then 1 else 0) := by
  unfold check_pipeline_termination
  by_cases h : wrap32 (c - 1) = 0 <;> simp [h, g_main_loop_quit]

/-- The counter after `k + 1` calls in a row. -/
theorem check_calls_count (b : Int) (g : Globals) (k : Nat) :
    (check_calls (k + 1) (some b) g).count = some (wrap32 (b - (k + 1))) := by
  induction k with
  | zero => simp [check_calls, check_pipeline_termination_count]
  | succ k ih =>
    have h : check_calls (k + 1 + 1) (some b) g
        = check_pipeline_termination (check_calls (k + 1) (some b) g).count
            (check_calls (k + 1) (some b) g).g := rfl
    rw [h, ih, check_pipeline_termination_count, wrap32_wrap32_sub]
    congr 2
    push_cast
    ring

/-- The counter after `k` calls in a row, starting from a value in range. -/
theorem check_calls_count_of_range (b : Int) (h0 : -2147483648 ≤ b) (h1 : b ≤ 2147483647)
    (g : Globals) (k : Nat) :
    (check_calls k (some b) g).count = some (wrap32 (b - k)) := by
  cases k with
  | zero => simp [check_calls, wrap32_id b h0 h1]
  | succ k => simpa using check_calls_count b g k

/-- The number of quit requests grows with call `k + 1` exactly if `b - (k + 1)`
is a multiple of `2^32`. -/
theorem check_calls_quits_succ (b : Int) (h0 : -2147483648 ≤ b) (h1 : b ≤ 2147483647)
    (g : Globals) (k : Nat) :
    (check_calls (k + 1) (some b) g).g.loop.quit_calls
      = (check_calls k (some b) g).g.loop.quit_calls
        + (if (b - (k + 1)) % 4294967296 = 0 then 1 else 0) := by
  have h : check_calls (k + 1) (some b) g
      = check_pipeline_termination (check_calls k (some b) g).count
          (check_calls k (some b) g).g := rfl
  rw [h, check_calls_count_of_range b h0 h1, check_pipeline_termination_quits,
    wrap32_wrap32_sub]
  have e : wrap32 (b - (k : Int) - 1) = 0 ↔ (b - ((k : Int) + 1)) % 4294967296 = 0 := by
    rw [wrap32_eq_zero_iff]
    have e2 : (b - (k : Int) - 1) = b - ((k : Int) + 1) := by ring
    rw [e2]
  by_cases hz : (b - ((k : Int) + 1)) % 4294967296 = 0
  · simp [hz, e.mpr hz]
  · have hz2 : ¬ wrap32 (b - (k : Int) - 1) = 0 := fun h2 => hz (e.mp h2)
    simp [hz, hz2]

/-- Call `k + 1` asks the loop to stop exactly if `b - (k + 1)` is a multiple of
`2^32`. -/
theorem kth_call_quits_iff (b : Int) (h0 : -2147483648 ≤ b) (h1 : b ≤ 2147483647)
    (g : Globals) (k : Nat) :
    kth_call_quits b g (k + 1) = true ↔ (b - (k + 1)) % 4294967296 = 0 := by
  unfold kth_call_quits
  simp only [Nat.add_sub_cancel, decide_eq_true_eq]
  rw [check_calls_quits_succ b h0 h1]
  by_cases h : (b - ((k : Int) + 1)) % 4294967296 = 0 <;> simp [h]

/-- The number of quit requests after `n < b + 2^32` calls. -/
theorem check_calls_quits_total (b : Int) (hb1 : 1 ≤ b) (hb2 : b ≤ 2147483647)
    (g : Globals) (n : Nat) (hn : (n : Int) < b + 4294967296) :
    (check_calls n (some b) g).g.loop.quit_calls
      = g.loop.quit_calls + (if b ≤ (n : Int) then 1 else 0) := by
  induction n with
  | zero =>
    have h0 : ¬ (b ≤ 0) := by omega
    simp [check_calls, h0]
  | succ n ih =>
    have hn2 : (n : Int) < b + 4294967296 := by push_cast at hn; omega
    rw [check_calls_quits_succ b (by omega) hb2, ih hn2]
    push_cast at hn ⊢
    by_cases h1 : b ≤ (n : Int)
    · have h2 : ¬ ((b - ((n : Int) + 1)) % 4294967296 = 0) := by omega
      have h3 : b ≤ (n : Int) + 1 := by omega
      simp [h1, h2, h3]
    · by_cases h4 : b = (n : Int) + 1
      · have h2 : (b - ((n : Int) + 1)) % 4294967296 = 0 := by omega
        have h3 : b ≤ (n : Int) + 1 := by omega
        simp [h1, h2, h3]
      · have h2 : ¬ ((b - ((n : Int) + 1)) % 4294967296 = 0) := by omega
        have h3 : ¬ (b ≤ (n : Int) + 1) := by omega
        simp [h1, h2, h3]

/-! ## C1: the trigger point of `new_sample` -/

/-- What one call of `new_sample` does to a counter that cannot overflow: it
adds exactly one, and schedules the check exactly when the value before the
addition equals the quota. -/
theorem new_sample_step (quota c : Int) (h0 : -2147483648 ≤ c) (h1 : c < 2147483647) :
    new_sample quota (some c)
      = { count := some (c + 1), scheduled := decide (c = quota),
          ret := GstFlowReturn.GST_FLOW_OK } := by
  unfold new_sample
  simp only []
  rw [wrap32_id (c + 1) (by omega) (by omega)]

/-- C1 (code evaluated at the failing input).  With `NUM_BUFFERS = 20`: the
20th unit (counter 19 before the call) raises the counter to 20 and schedules
nothing; the 21st unit (counter 20 before the call) raises it to 21 and
schedules the completion check; from a fresh counter the only unit among the
first 22 that schedules a check is the 21st. -/
theorem new_sample_schedules_one_unit_after_quota :
    new_sample NUM_BUFFERS (some 19)
      = { count := some 20, scheduled := false, ret := GstFlowReturn.GST_FLOW_OK } ∧
    new_sample NUM_BUFFERS (some 20)
      = { count := some 21, scheduled := true, ret := GstFlowReturn.GST_FLOW_OK } ∧
    deliver NUM_BUFFERS 22 none = List.replicate 20 false ++ [true, false] := by
  decide

/-! ## C2: `connect_branch` without a tee -/

/-- Whenever the lookup of `"tee"` fails, `connect_branch` sets the error flag,
leaves the pipeline and the loop exactly as they were, and returns
`G_SOURCE_REMOVE`. -/
theorem connect_branch_without_tee (p : Pipeline) (g : Globals)
    (h : gst_bin_get_by_name p "tee" = none) :
    connect_branch p g
      = { pipeline := p, g := { loop := g.loop, error := 1 }, ret := G_SOURCE_REMOVE } := by
  unfold connect_branch
  rw [h]

/-- C2 (code evaluated at the failing input).  On a pipeline holding only the
source, with the loop running and the error flag clear, `connect_branch` sets
the error flag and adds nothing to the pipeline, but the loop is still running
and `g_main_loop_quit` has not been called. -/
theorem connect_branch_missing_tee_does_not_quit :
    connect_branch
        { children := [{ name := "audiotestsrc0", factory := "audiotestsrc" }],
          links := [], tee_pads := [], probes := [], serial := 1 }
        Globals.init
      = { pipeline :=
            { children := [{ name := "audiotestsrc0", factory := "audiotestsrc" }],
              links := [], tee_pads := [], probes := [], serial := 1 },
          g := { loop := { is_running := true, quit_calls := 0 }, error := 1 },
          ret := false } := by
  decide

/-! ## C3: the zero transition of the completion counter -/

/-- C3 (counterexample).  With the counter initialised to `B = 1`, call number
`4294967297` asks the loop to stop although `4294967297 ≠ B`: the 32 bit
counter has wrapped around to zero a second time. -/
theorem kth_call_quits_after_wrap_around :
    kth_call_quits 1 Globals.init 4294967297 = true ∧ (4294967297 : Int) ≠ 1 := by
  refine ⟨?_, by decide⟩
  have h := (kth_call_quits_iff 1 (by decide) (by decide) Globals.init 4294967296).mpr
  apply h
  decide

/-- C3 (amended).  For a planned branch count `1 ≤ B ≤ 2^31 - 1` and any
number `n < B + 2^32` of calls made from a counter initialised to `B`: among
these calls the `k`-th asks the loop to stop if and only if `k = B`, and in
total the stop has been requested once if `n ≥ B` and never if `n < B`. -/
theorem check_pipeline_termination_zero_transition (B : Int) (g : Globals) (n : Nat)
    (hB1 : 1 ≤ B) (hB2 : B ≤ 2147483647) (hn : (n : Int) < B + 4294967296) :
    (∀ k : Nat, 1 ≤ k → k ≤ n → (kth_call_quits B g k = true ↔ (k : Int) = B)) ∧
    (check_calls n (some B) g).g.loop.quit_calls
      = g.loop.quit_calls + (if B ≤ (n : Int) then 1 else 0) := by
  refine ⟨?_, check_calls_quits_total B hB1 hB2 g n hn⟩
  intro k hk1 hkn
  obtain ⟨j, rfl⟩ : ∃ j, k = j + 1 := ⟨k - 1, by omega⟩
  rw [kth_call_quits_iff B (by omega) hB2 g j]
  have hj : ((j + 1 : Nat) : Int) ≤ (n : Int) := by exact_mod_cast hkn
  push_cast at hj ⊢
  omega

/-- C3 (witness): `B = 5`, six calls. -/
theorem check_pipeline_termination_zero_transition_witness :
    (∀ k : Nat, 1 ≤ k → k ≤ 6 → (kth_call_quits 5 Globals.init k = true ↔ (k : Int) = 5)) ∧
    (check_calls 6 (some 5) Globals.init).g.loop.quit_calls
      = Globals.init.loop.quit_calls + (if (5 : Int) ≤ ((6 : Nat) : Int) then 1 else 0) :=
  check_pipeline_termination_zero_transition 5 Globals.init 6 (by decide) (by decide) (by decide)

/-! ## C9: the lower bound of the completion counter -/

/-- C9 (counterexample).  A call made when the counter is zero is not a no-op:
it stores `-1`, so `counter ≥ 0` does not survive the call. -/
theorem check_pipeline_termination_below_zero :
    check_pipeline_termination (some 0) Globals.init
      = { count := some (-1), g := Globals.init, ret := false } ∧ ¬ ((0 : Int) ≤ -1) := by
  decide

/-- C9 (amended).  From every state in which the counter `c` is at least 1 (and
a `gint`), one call stores `c - 1`, which is `≥ 0`; and from every state in
which the counter is zero, the call stores `-1` and does not ask the loop to
stop (the statics are unchanged). -/
theorem check_pipeline_termination_lower_bound (c : Int) (g : Globals)
    (h1 : 1 ≤ c) (h2 : c ≤ 2147483647) :
    (check_pipeline_termination (some c) g).count = some (c - 1) ∧ 0 ≤ c - 1 ∧
    check_pipeline_termination (some 0) g = { count := some (-1), g := g, ret := false } := by
  refine ⟨?_, by omega, ?_⟩
  · rw [check_pipeline_termination_count, wrap32_id (c - 1) (by omega) (by omega)]
  · unfold check_pipeline_termination
    have hw : wrap32 (-1) = -1 := by decide
    simp [hw]

/-- C9 (witness): the counter at 200. -/
theorem check_pipeline_termination_lower_bound_witness :
    (check_pipeline_termination (some 200) Globals.init).count = some (200 - 1) ∧
    (0 : Int) ≤ 200 - 1 ∧
    check_pipeline_termination (some 0) Globals.init
      = { count := some (-1), g := Globals.init, ret := false } :=
  check_pipeline_termination_lower_bound 200 Globals.init (by decide) (by decide)

/-! ## C10: `bus_message` -/

/-- C10.  For every bus message: an error message stores 1 in the error flag
and every other message leaves the flag as it was; `g_main_loop_quit` is called
(once) exactly for an error or an end-of-stream message; and a warning or any
other message leaves the statics unchanged. -/
theorem bus_message_classification (msg : GstMessageType) (g : Globals) :
    (bus_message msg g).error = (if msg = GstMessageType.ERROR then 1 else g.error) ∧
    ((bus_message msg g).loop.quit_calls = g.loop.quit_calls + 1
      ↔ msg = GstMessageType.ERROR ∨ msg = GstMessageType.EOS) ∧
    (bus_message msg g).loop
      = (if msg = GstMessageType.ERROR ∨ msg = GstMessageType.EOS
          then g_main_loop_quit g.loop else g.loop) ∧
    (msg = GstMessageType.WARNING → bus_message msg g = g) ∧
    (msg ≠ GstMessageType.ERROR → msg ≠ GstMessageType.EOS → bus_message msg g = g) := by
  cases msg <;> simp [bus_message, g_main_loop_quit]

/-! ## C5 and C6: `link_to_tee` -/

/-- A pad that is linked, or whose `"linking"` data is set, is left alone by
`link_to_tee`: pass-through, no link call, pad unchanged. -/
theorem link_to_tee_guarded (pad : GstPad) (queue : String) (env : LinkEnv)
    (h : gst_pad_is_linked pad = true ∨ pad.linking = true) :
    link_to_tee pad queue env
      = { pad := pad, ret := GstPadProbeReturn.GST_PAD_PROBE_PASS, link_calls := 0 } := by
  unfold link_to_tee
  rcases h with h | h
  · simp [h]
  · by_cases hl : gst_pad_is_linked pad = true <;> simp [hl, h]

/-- After any call of `link_to_tee` the pad is linked or carries the
`"linking"` data, and the call executed at most one link. -/
theorem link_to_tee_sets_guard (pad : GstPad) (queue : String) (env : LinkEnv) :
    (gst_pad_is_linked (link_to_tee pad queue env).pad = true
      ∨ (link_to_tee pad queue env).pad.linking = true)
    ∧ (link_to_tee pad queue env).link_calls ≤ 1 := by
  by_cases h : gst_pad_is_linked pad = true ∨ pad.linking = true
  · rw [link_to_tee_guarded pad queue env h]
    exact ⟨h, Nat.zero_le _⟩
  · have h1 : gst_pad_is_linked pad = false := by
      cases hh : gst_pad_is_linked pad
      · rfl
      · exact absurd (Or.inl hh) h
    have h2 : pad.linking = false := by
      cases hh : pad.linking
      · rfl
      · exact absurd (Or.inr hh) h
    unfold link_to_tee
    cases hp : env.parent with
    | none => simp [h1, h2]
    | some t =>
      cases hk : env.link_ok <;> simp [h1, h2, gst_element_link_pads]

/-- A run of invocations on a guarded pad executes no link and changes
nothing. -/
theorem probe_run_guarded (queue : String) (envs : List LinkEnv) (pad : GstPad)
    (h : gst_pad_is_linked pad = true ∨ pad.linking = true) :
    probe_run queue pad envs = (pad, 0) := by
  induction envs with
  | nil => rfl
  | cons env envs ih =>
    simp only [probe_run]
    rw [link_to_tee_guarded pad queue env h]
    simp [ih]

/-- C5 (counterexample).  A pad that is not linked but whose `"linking"` data is
set, and a pad that is not linked and whose parent cannot be resolved: in both
states `link_to_tee` returns `GST_PAD_PROBE_PASS`, which lets the data through,
and the pad is still not linked when it returns. -/
theorem link_to_tee_passes_unlinked_pad :
    link_to_tee { name := "src_1", peer := none, linking := true } "queue1"
        { parent := some "tee", link_ok := true }
      = { pad := { name := "src_1", peer := none, linking := true },
          ret := GstPadProbeReturn.GST_PAD_PROBE_PASS, link_calls := 0 } ∧
    link_to_tee { name := "src_1", peer := none, linking := false } "queue1"
        { parent := none, link_ok := true }
      = { pad := { name := "src_1", peer := none, linking := true },
          ret := GstPadProbeReturn.GST_PAD_PROBE_PASS, link_calls := 0 } ∧
    gst_pad_is_linked { name := "src_1", peer := none, linking := true } = false := by
  decide

/-- C5 (amended).  For every pad state and every answer of the engine: a pad
that was linked on entry is passed through unchanged (still linked); a
remove-self result whose link call succeeded leaves the pad linked to the
queue; the pad is linked on return in exactly these two cases; and a
pass-through that returns with the pad not linked happens only when the
`"linking"` data was already set or the parent could not be resolved. -/
theorem link_to_tee_linked_on_return (pad : GstPad) (queue : String) (env : LinkEnv) :
    (gst_pad_is_linked pad = true →
      link_to_tee pad queue env
        = { pad := pad, ret := GstPadProbeReturn.GST_PAD_PROBE_PASS, link_calls := 0 }) ∧
    ((link_to_tee pad queue env).ret = GstPadProbeReturn.GST_PAD_PROBE_REMOVE →
      env.link_ok = true → (link_to_tee pad queue env).pad.peer = some queue) ∧
    (gst_pad_is_linked (link_to_tee pad queue env).pad = true ↔
      gst_pad_is_linked pad = true ∨
        (pad.linking = false ∧ env.parent.isSome = true ∧ env.link_ok = true)) ∧
    ((link_to_tee pad queue env).ret = GstPadProbeReturn.GST_PAD_PROBE_PASS →
      gst_pad_is_linked (link_to_tee pad queue env).pad = false →
      pad.linking = true ∨ env.parent = none) := by
  refine ⟨fun h => link_to_tee_guarded pad queue env (Or.inl h), ?_, ?_, ?_⟩
  all_goals
    unfold link_to_tee
    cases hl : gst_pad_is_linked pad <;> cases hk : pad.linking <;>
      cases hp : env.parent <;> cases ho : env.link_ok <;>
      simp_all [gst_element_link_pads, gst_pad_is_linked]

/-- C6.  For every queue, every initial pad state and every finite sequence of
invocations of `link_to_tee` on the pad: `gst_element_link_pads` is executed at
most once in total; it is never executed if the pad is linked at the start, and
the pad is then unchanged at the end; and a single invocation on a linked pad
returns pass-through with the pad (link and `"linking"` data) unchanged. -/
theorem link_to_tee_never_double_links (queue : String) (pad : GstPad)
    (envs : List LinkEnv) :
    (probe_run queue pad envs).2 ≤ 1 ∧
    (gst_pad_is_linked pad = true → probe_run queue pad envs = (pad, 0)) ∧
    (∀ env : LinkEnv, gst_pad_is_linked pad = true →
      link_to_tee pad queue env
        = { pad := pad, ret := GstPadProbeReturn.GST_PAD_PROBE_PASS, link_calls := 0 }) := by
  refine ⟨?_, fun h => probe_run_guarded queue envs pad (Or.inl h),
    fun env h => link_to_tee_guarded pad queue env (Or.inl h)⟩
  cases envs with
  | nil => simp [probe_run]
  | cons env envs =>
    simp only [probe_run]
    have h := link_to_tee_sets_guard pad queue env
    rw [probe_run_guarded queue envs _ h.1]
    simpa using h.2

/-! ## C7: the end of `execute_test` -/

/-- Attaching the `connect_branch` timeouts changes only the main context. -/
theorem add_connect_timeouts_state (n : Nat) (it : Iteration) :
    (add_connect_timeouts n it).g = it.g ∧
    (add_connect_timeouts n it).pipeline_state = it.pipeline_state ∧
    (add_connect_timeouts n it).bus_watch = it.bus_watch ∧
    (add_connect_timeouts n it).bus_released = it.bus_released ∧
    (add_connect_timeouts n it).pipeline_released = it.pipeline_released := by
  induction n generalizing it with
  | zero => simp [add_connect_timeouts]
  | succ n ih =>
    simp only [add_connect_timeouts]
    have h := ih (g_timeout_add it).1
    simpa [g_timeout_add] using h

/-- The loop is entered with the pipeline playing, the bus watched, nothing
released and the watchdog attached. -/
theorem execute_test_setup_running (branches : Int) (g : Globals) (sources : List Nat)
    (next_id : Nat) :
    (execute_test_setup branches g sources next_id).1.pipeline_state
        = GstState.GST_STATE_PLAYING ∧
    (execute_test_setup branches g sources next_id).1.bus_watch = true ∧
    (execute_test_setup branches g sources next_id).1.g = g ∧
    (execute_test_setup branches g sources next_id).2
        ∈ (execute_test_setup branches g sources next_id).1.sources := by
  unfold execute_test_setup
  refine ⟨rfl, ?_, ?_, ?_⟩
  · exact (add_connect_timeouts_state _ _).2.2.1
  · exact (add_connect_timeouts_state _ _).1
  · exact List.mem_append_right _ (List.mem_singleton.mpr rfl)

/-- C7 (counterexample).  The loop has been run (pipeline playing, bus watched,
loop stopped by a quit) but the watchdog id 7 is no longer attached, so
cancelling it fails: `execute_test` sets the error flag and returns with the
pipeline still playing, the bus still watched and no reference released. -/
theorem execute_test_failed_cancel_skips_teardown :
    execute_test_teardown 7
        { g := { loop := { is_running := false, quit_calls := 1 }, error := 0 },
          sources := [], next_id := 8,
          pipeline_state := GstState.GST_STATE_PLAYING,
          bus_watch := true, bus_released := false, pipeline_released := false,
          branches_count := some 0 }
      = { g := { loop := { is_running := false, quit_calls := 1 }, error := 1 },
          sources := [], next_id := 8,
          pipeline_state := GstState.GST_STATE_PLAYING,
          bus_watch := true, bus_released := false, pipeline_released := false,
          branches_count := some 0 } := by
  decide

/-- C7 (amended).  For every iteration of `execute_test` that ran the loop,
whatever the loop did: the loop was entered with the pipeline playing and the
watchdog attached; if the watchdog is still attached when the loop returns
(as it is after the watchdog itself fired), it is cancelled and the iteration
is torn down (pipeline state null, bus watch removed, bus and pipeline
released) with the statics as the loop left them; if cancelling fails, the
error flag is set and the function returns at once, the pipeline state, the bus
watch and the references being left as the loop left them. -/
theorem execute_test_teardown_when_cancelled (branches : Int)
    (main_loop_run : Iteration → Iteration) (g : Globals) (sources : List Nat)
    (next_id : Nat) :
    ((execute_test_setup branches g sources next_id).2
        ∈ (main_loop_run (execute_test_setup branches g sources next_id).1).sources →
      (execute_test branches true main_loop_run g sources next_id).pipeline_state
          = GstState.GST_STATE_NULL ∧
      (execute_test branches true main_loop_run g sources next_id).bus_watch = false ∧
      (execute_test branches true main_loop_run g sources next_id).bus_released = true ∧
      (execute_test branches true main_loop_run g sources next_id).pipeline_released = true ∧
      (execute_test branches true main_loop_run g sources next_id).g
          = (main_loop_run (execute_test_setup branches g sources next_id).1).g) ∧
    ((execute_test_setup branches g sources next_id).2
        ∉ (main_loop_run (execute_test_setup branches g sources next_id).1).sources →
      (execute_test branches true main_loop_run g sources next_id).g.error = 1 ∧
      (execute_test branches true main_loop_run g sources next_id).pipeline_state
          = (main_loop_run (execute_test_setup branches g sources next_id).1).pipeline_state ∧
      (execute_test branches true main_loop_run g sources next_id).bus_watch
          = (main_loop_run (execute_test_setup branches g sources next_id).1).bus_watch ∧
      (execute_test branches true main_loop_run g sources next_id).bus_released
          = (main_loop_run (execute_test_setup branches g sources next_id).1).bus_released ∧
      (execute_test branches true main_loop_run g sources next_id).pipeline_released
          = (main_loop_run (execute_test_setup branches g sources next_id).1).pipeline_released) ∧
    (execute_test_setup branches g sources next_id).1.pipeline_state
        = GstState.GST_STATE_PLAYING ∧
    (execute_test_setup branches g sources next_id).2
        ∈ (dispatch_timeout (execute_test_setup branches g sources next_id).2
            (execute_test_setup branches g sources next_id).1).sources := by
  have hs := execute_test_setup_running branches g sources next_id
  refine ⟨?_, ?_, hs.1, ?_⟩
  · intro h
    simp [execute_test, execute_test_teardown, g_source_remove, h]
  · intro h
    simp [execute_test, execute_test_teardown, g_source_remove, h]
  · simpa [dispatch_timeout, timeout_check, G_SOURCE_CONTINUE] using hs.2.2.2

/-! ## C8: the repeat loop of `main` -/

/-- Once the error flag is set the loop of `main` does not run another
iteration. -/
theorem main_while_error (times : Int) (fails : Int → Bool) (fuel : Nat) (count : Int)
    (g : Globals) (done : List Int) (h : g.error ≠ 0) :
    main_while times fails fuel count g done = (count, g, done) := by
  cases fuel with
  | zero => rfl
  | succ fuel => simp [main_while, h]

/-- The loop of `main` started at index `c` with the error flag clear and enough
fuel: it runs the indices `c, ..., c + j - 1` for some `j`, stopping at the
first failing iteration or at `times`. -/
theorem main_while_spec (times : Int) (fails : Int → Bool) (fuel : Nat) :
    ∀ (c : Nat) (g : Globals) (done : List Int), g.error = 0 → times.toNat ≤ c + fuel →
    ∃ j : Nat,
      (main_while times fails fuel c g done).2.2
        = done ++ (List.range' c j).map (fun i : Nat => (i : Int)) ∧
      c + j ≤ max c times.toNat ∧
      (∀ i : Nat, c ≤ i → i + 1 < c + j → fails i = false) ∧
      (c + j < times.toNat → 1 ≤ j ∧ fails ((c + j - 1 : Nat) : Int) = true) ∧
      ((main_while times fails fuel c g done).2.1.error = 0
        ↔ ∀ i : Nat, c ≤ i → i < c + j → fails i = false) ∧
      (main_while times fails fuel c g done).2.1.error ≤ 1 := by
  induction fuel with
  | zero =>
    intro c g done hg hf
    refine ⟨0, by simp [main_while], by simp, ?_, ?_, ?_, ?_⟩
    · intro i h1 h2; omega
    · intro h; omega
    · simp only [main_while, hg, true_iff]
      intro i h1 h2; omega
    · simp [main_while, hg]
  | succ fuel ih =>
    intro c g done hg hf
    by_cases hc : (c : Int) < times
    · have hct : c < times.toNat := by omega
      have hstep : main_while times fails (fuel + 1) c g done
          = main_while times fails fuel (((c + 1 : Nat) : Int))
              (run_iteration (fails c) g) (done ++ [(c : Int)]) := by
        simp [main_while, hc, hg]
      rw [hstep]
      cases hfc : fails (c : Int) with
      | true =>
        have he : (run_iteration true g).error ≠ 0 := by simp [run_iteration]
        rw [main_while_error times fails fuel _ _ _ he]
        refine ⟨1, by simp [List.range'], ?_, ?_, ?_, ?_, ?_⟩
        · omega
        · intro i h1 h2; omega
        · intro _; exact ⟨le_refl 1, by simpa using hfc⟩
        · simp only [run_iteration, if_true]
          constructor
          · intro h; simp at h
          · intro h
            have := h c (le_refl c) (by omega)
            rw [hfc] at this
            cases this
        · simp [run_iteration]
      | false =>
        have hg1 : (run_iteration false g).error = 0 := by simpa [run_iteration] using hg
        obtain ⟨j, h1, h2, h3, h4, h5, h6⟩ :=
          ih (c + 1) (run_iteration false g) (done ++ [(c : Int)]) hg1 (by omega)
        refine ⟨j + 1, ?_, ?_, ?_, ?_, ?_, h6⟩
        · rw [h1]
          simp [List.range']
        · omega
        · intro i hi1 hi2
          by_cases hic : i = c
          · subst hic; exact hfc
          · exact h3 i (by omega) (by omega)
        · intro h
          have h4 := h4 (by omega)
          refine ⟨by omega, ?_⟩
          have e : c + (j + 1) - 1 = c + 1 + j - 1 := by omega
          rw [e]
          exact h4.2
        · rw [h5]
          constructor
          · intro h i hi1 hi2
            by_cases hic : i = c
            · subst hic; exact hfc
            · exact h i (by omega) (by omega)
          · intro h i hi1 hi2
            exact h i (by omega) (by omega)
    · have hct : times.toNat ≤ c := by omega
      have hstep : main_while times fails (fuel + 1) c g done = ((c : Int), g, done) := by
        simp [main_while, hc]
      rw [hstep]
      refine ⟨0, by simp, by simp, ?_, ?_, ?_, ?_⟩
      · intro i h1 h2; omega
      · intro h; omega
      · simp only [hg, true_iff]
        intro i h1 h2; omega
      · simp [hg]

/-- C8.  For every iteration count `times` and every sequence `fails` of
iteration outcomes, `main` (after successful option parsing) calls
`execute_test` with the indices `0, 1, ..., m - 1`, where: `m` is at most
`times` (so `m = 0` when `times ≤ 0`); every executed iteration but the last
left the error flag clear; if fewer than `times` iterations ran, the last one
executed left the error flag set; and the exit status is 0 if and only if no
executed iteration set the error flag, and is 1 otherwise.  When option
parsing fails nothing is executed and the status is 1. -/
theorem main_repeat_loop_and_exit_status (times : Int) (fails : Int → Bool) :
    ∃ m : Nat,
      (main true times fails).executed = (List.range m).map (fun i : Nat => (i : Int)) ∧
      m ≤ times.toNat ∧
      (∀ i : Nat, i + 1 < m → fails i = false) ∧
      (m < times.toNat → 1 ≤ m ∧ fails ((m - 1 : Nat) : Int) = true) ∧
      ((main true times fails).status = 0 ↔ ∀ i : Nat, i < m → fails i = false) ∧
      ((main true times fails).status ≠ 0 → (main true times fails).status = 1) ∧
      main false times fails = { executed := [], status := 1 } := by
  obtain ⟨j, h1, h2, h3, h4, h5, h6⟩ :=
    main_while_spec times fails times.toNat 0 Globals.init [] rfl (by omega)
  refine ⟨j, ?_, ?_, ?_, ?_, ?_, ?_, rfl⟩
  · simp only [main, Bool.not_true, Bool.false_eq_true, if_false]
    have h1 : (main_while times fails times.toNat 0 Globals.init []).2.2
        = List.map (fun i : Nat => (i : Int)) (List.range' 0 j) := by simpa using h1
    rw [h1, List.range_eq_range']
  · simpa using h2
  · intro i hi
    exact h3 i (Nat.zero_le i) (by omega)
  · intro h
    have := h4 (by omega)
    simpa using this
  · simp only [main, Bool.not_true, Bool.false_eq_true, if_false]
    have h5 : (main_while times fails times.toNat 0 Globals.init []).2.1.error = 0
        ↔ ∀ i : Nat, 0 ≤ i → i < 0 + j → fails i = false := by simpa using h5
    rw [h5]
    constructor
    · intro h i hi; exact h i (Nat.zero_le i) (by omega)
    · intro h i _ hi; exact h i (by omega)
  · simp only [main, Bool.not_true, Bool.false_eq_true, if_false]
    have h6 : (main_while times fails times.toNat 0 Globals.init []).2.1.error ≤ 1 := by
      simpa using h6
    intro h
    omega

/-! ## Whole runs, in general -/

/-- The callback `new_sample` in terms of the value of the counter datum. -/
theorem new_sample_eq (quota : Int) (cnt : Option Int) :
    new_sample quota cnt
      = { count := some (wrap32 (counter_value cnt + 1)),
          scheduled := decide (counter_value cnt = quota),
          ret := GstFlowReturn.GST_FLOW_OK } := by
  cases cnt <;> rfl

/-- No more appsinks have passed the quota than there are appsinks. -/
theorem fired_le_length (quota : Int) (sinks : List (Option Int)) :
    fired quota sinks ≤ sinks.length := by
  unfold fired
  exact List.countP_le_length _

/-- The countdown to `b - (d + 1)` extends the countdown to `b - d`. -/
theorem countdown_succ (b : Int) (d : Nat) :
    countdown b (d + 1) = countdown b d ++ [b - ((d : Int) + 1)] := by
  unfold countdown
  rw [List.range_succ, List.map_append]
  simp

/-- One dispatched check, written out. -/
theorem step_dispatch_eq (quota : Int) (s : RunState) (c : Int) (hidle : s.idle ≠ 0)
    (hc : s.branches_count = some c) :
    s.step quota Event.dispatch
      = { g := if wrap32 (c - 1) = 0
            then { loop := g_main_loop_quit s.g.loop, error := s.g.error } else s.g,
          branches_count := some (wrap32 (c - 1)),
          sinks := s.sinks,
          idle := s.idle - 1,
          observed := s.observed ++ [wrap32 (c - 1)] } := by
  simp only [RunState.step, hidle, if_false, hc, check_pipeline_termination]
  by_cases hz : wrap32 (c - 1) = 0 <;> simp [hz, Option.toList]

/-- Dispatching one pending check keeps the invariant, with one more check
dispatched. -/
theorem RunInv.dispatch {quota : Int} {branches : Nat} {s : RunState} {d : Nat}
    (hB : (branches : Int) ≤ 2147483647) (h : RunInv quota branches s d)
    (hidle : s.idle ≠ 0) :
    RunInv quota branches (s.step quota Event.dispatch) (d + 1) ∧
    (s.step quota Event.dispatch).idle + 1 = s.idle ∧
    (s.step quota Event.dispatch).sinks = s.sinks := by
  have hf := fired_le_length quota s.sinks
  have hlen := h.length_eq
  have hi := h.idle_eq
  have hd : d < branches := by omega
  have hw : wrap32 ((branches : Int) - (d : Int) - 1) = (branches : Int) - ((d : Int) + 1) := by
    rw [wrap32_id _ (by omega) (by omega)]
    ring
  have hg : s.g = Globals.init := by
    rw [h.g_eq, if_neg (by omega)]
  rw [step_dispatch_eq quota s _ hidle h.count_eq, hw]
  refine ⟨⟨?_, ?_, ?_, ?_, hlen⟩, ?_, rfl⟩
  · show s.idle - 1 + (d + 1) = fired quota s.sinks
    omega
  · show some ((branches : Int) - ((d : Int) + 1)) = some ((branches : Int) - ((d + 1 : Nat) : Int))
    push_cast
    rfl
  · show s.observed ++ [(branches : Int) - ((d : Int) + 1)] = countdown (branches : Int) (d + 1)
    rw [countdown_succ, h.observed_eq]
  · show (if (branches : Int) - ((d : Int) + 1) = 0
        then { loop := g_main_loop_quit s.g.loop, error := s.g.error } else s.g)
      = if d + 1 = branches
        then { loop := g_main_loop_quit Globals.init.loop, error := 0 } else Globals.init
    rw [hg]
    by_cases hz : d + 1 = branches
    · have hz2 : (branches : Int) - ((d : Int) + 1) = 0 := by omega
      rw [if_pos hz, if_pos hz2]
      rfl
    · have hz2 : ¬ ((branches : Int) - ((d : Int) + 1) = 0) := by omega
      rw [if_neg hz, if_neg hz2]
  · show s.idle - 1 + 1 = s.idle
    omega

/-- Counting the units of branch `i` in a sequence that starts with a unit. -/
theorem count_unit_cons_unit (i j : Nat) (evs : List Event) :
    (Event.unit j :: evs).count (Event.unit i)
      = evs.count (Event.unit i) + if j = i then 1 else 0 := by
  rw [List.count_cons]
  by_cases h : j = i <;> simp [h]

/-- Counting the units of branch `i` in a sequence that starts with a dispatch. -/
theorem count_unit_cons_dispatch (i : Nat) (evs : List Event) :
    (Event.dispatch :: evs).count (Event.unit i) = evs.count (Event.unit i) := by
  rw [List.count_cons]
  simp

/-- One delivered unit, written out. -/
theorem step_unit_eq (quota : Int) (s : RunState) (j : Nat) (cnt : Option Int)
    (h : s.sinks[j]? = some cnt) :
    s.step quota (Event.unit j)
      = { g := s.g,
          branches_count := s.branches_count,
          sinks := s.sinks.set j (some (wrap32 (counter_value cnt + 1))),
          idle := if counter_value cnt = quota then s.idle + 1 else s.idle,
          observed := s.observed } := by
  simp only [RunState.step, h, new_sample_eq]
  by_cases hq : counter_value cnt = quota <;> simp [hq]

/-- A unit for an appsink that does not exist changes nothing. -/
theorem step_unit_none (quota : Int) (s : RunState) (j : Nat) (h : s.sinks[j]? = none) :
    s.step quota (Event.unit j) = s := by
  simp only [RunState.step, h]

/-- A unit delivered to an appsink that has not passed the quota keeps the
invariant; the check it may schedule is pending. -/
theorem RunInv.unit {quota : Int} {branches : Nat} {s : RunState} {d : Nat}
    (hQ : quota + 1 ≤ 2147483647) (h : RunInv quota branches s d) (j : Nat)
    (cnt : Option Int) (hj : s.sinks[j]? = some cnt) (h0 : 0 ≤ counter_value cnt)
    (h1 : counter_value cnt ≤ quota) :
    RunInv quota branches (s.step quota (Event.unit j)) d ∧
    (s.step quota (Event.unit j)).sinks = s.sinks.set j (some (counter_value cnt + 1)) := by
  have hw : wrap32 (counter_value cnt + 1) = counter_value cnt + 1 :=
    wrap32_id _ (by omega) (by omega)
  rw [step_unit_eq quota s j cnt hj, hw]
  obtain ⟨hlt, hget⟩ := List.getElem?_eq_some.mp hj
  have hfired : fired quota (s.sinks.set j (some (counter_value cnt + 1)))
      = fired quota s.sinks + if counter_value cnt = quota then 1 else 0 := by
    unfold fired
    rw [List.countP_set _ _ _ _ hlt, hget]
    have hp1 : decide (quota < counter_value cnt) = false := by
      simp only [decide_eq_false_iff_not]; omega
    have hv : counter_value (some (counter_value cnt + 1)) = counter_value cnt + 1 := rfl
    by_cases hq : counter_value cnt = quota
    · have hp2 : decide (quota < counter_value (some (counter_value cnt + 1))) = true := by
        rw [hv]; simp only [decide_eq_true_eq]; omega
      simp only [hp1, hp2]
      simp [hq]
    · have hp2 : decide (quota < counter_value (some (counter_value cnt + 1))) = false := by
        rw [hv]; simp only [decide_eq_false_iff_not]; omega
      simp only [hp1, hp2]
      simp [hq]
  refine ⟨⟨?_, h.count_eq, h.observed_eq, h.g_eq, ?_⟩, rfl⟩
  · show (if counter_value cnt = quota then s.idle + 1 else s.idle) + d
        = fired quota (s.sinks.set j (some (counter_value cnt + 1)))
    rw [hfired]
    have := h.idle_eq
    by_cases hq : counter_value cnt = quota
    · simp only [hq, if_true]; omega
    · simp only [hq, if_false]; omega
  · show (s.sinks.set j (some (counter_value cnt + 1))).length = branches
    rw [List.length_set]
    exact h.length_eq

/-- Any sequence of events that keeps every appsink within `quota + 1` units
keeps the invariant, and every appsink counter ends at its start value plus the
number of units delivered to it. -/
theorem RunInv.run {quota : Int} {branches : Nat} (hB : (branches : Int) ≤ 2147483647)
    (hQ : quota + 1 ≤ 2147483647) (evs : List Event) :
    ∀ (s : RunState) (d : Nat), RunInv quota branches s d →
      within_budget (quota + 1) s evs →
      ∃ d2 : Nat, RunInv quota branches (s.run quota evs) d2 ∧
        ∀ (i : Nat) (cnt : Option Int), s.sinks[i]? = some cnt →
          ∃ cnt2 : Option Int, (s.run quota evs).sinks[i]? = some cnt2 ∧
            counter_value cnt2
              = counter_value cnt + ((evs.count (Event.unit i) : Nat) : Int) := by
  induction evs with
  | nil =>
    intro s d h _
    exact ⟨d, h, fun i cnt hi => ⟨cnt, hi, by simp⟩⟩
  | cons ev rest ih =>
    intro s d h hb
    have hrun : s.run quota (ev :: rest) = (s.step quota ev).run quota rest := rfl
    rw [hrun]
    cases ev with
    | dispatch =>
      have hb2 : ∀ t : RunState, t.sinks = s.sinks → within_budget (quota + 1) t rest := by
        intro t ht i cnt hi
        rw [ht] at hi
        have := hb i cnt hi
        rw [count_unit_cons_dispatch] at this
        exact this
      by_cases hidle : s.idle = 0
      · have hs : s.step quota Event.dispatch = s := by
          simp only [RunState.step, hidle, if_true]
        rw [hs]
        obtain ⟨d2, hinv, hval⟩ := ih s d h (hb2 s rfl)
        refine ⟨d2, hinv, fun i cnt hi => ?_⟩
        rw [count_unit_cons_dispatch]
        exact hval i cnt hi
      · obtain ⟨hinv1, _, hsinks⟩ := RunInv.dispatch hB h hidle
        obtain ⟨d2, hinv, hval⟩ := ih _ _ hinv1 (hb2 _ hsinks)
        refine ⟨d2, hinv, fun i cnt hi => ?_⟩
        rw [count_unit_cons_dispatch]
        exact hval i cnt (by rw [hsinks]; exact hi)
    | unit j =>
      cases hj : s.sinks[j]? with
      | none =>
        rw [step_unit_none quota s j hj]
        have hb2 : within_budget (quota + 1) s rest := by
          intro i cnt hi
          have := hb i cnt hi
          rw [count_unit_cons_unit] at this
          refine ⟨this.1, ?_⟩
          have h2 := this.2
          push_cast at h2
          split at h2 <;> omega
        obtain ⟨d2, hinv, hval⟩ := ih s d h hb2
        refine ⟨d2, hinv, fun i cnt hi => ?_⟩
        have hij : j ≠ i := by
          intro e
          rw [e] at hj
          rw [hj] at hi
          cases hi
        rw [count_unit_cons_unit, if_neg hij]
        exact hval i cnt hi
      | some cntj =>
        have hbj := hb j cntj hj
        rw [count_unit_cons_unit, if_pos rfl] at hbj
        have hbj2 := hbj.2
        push_cast at hbj2
        obtain ⟨hinv1, hsinks⟩ :=
          RunInv.unit hQ h j cntj hj hbj.1 (by omega)
        obtain ⟨hlt, _⟩ := List.getElem?_eq_some.mp hj
        have hb2 : within_budget (quota + 1) (s.step quota (Event.unit j)) rest := by
          intro i cnt hi
          rw [hsinks, List.getElem?_set] at hi
          by_cases hij : j = i
          · rw [if_pos hij, if_pos hlt] at hi
            cases hi
            subst hij
            have hv : counter_value (some (counter_value cntj + 1)) = counter_value cntj + 1 :=
              rfl
            rw [hv]
            exact ⟨by omega, by omega⟩
          · rw [if_neg hij] at hi
            have := hb i cnt hi
            rw [count_unit_cons_unit, if_neg hij] at this
            simpa using this
        obtain ⟨d2, hinv, hval⟩ := ih _ _ hinv1 hb2
        refine ⟨d2, hinv, fun i cnt hi => ?_⟩
        by_cases hij : j = i
        · subst hij
          rw [hj] at hi
          cases hi
          have hnew : (s.step quota (Event.unit j)).sinks[j]?
              = some (some (counter_value cntj + 1)) := by
            rw [hsinks, List.getElem?_set, if_pos rfl, if_pos hlt]
          obtain ⟨cnt2, hc1, hc2⟩ := hval j _ hnew
          refine ⟨cnt2, hc1, ?_⟩
          rw [hc2, count_unit_cons_unit, if_pos rfl]
          have hv : counter_value (some (counter_value cntj + 1)) = counter_value cntj + 1 :=
            rfl
          rw [hv]
          push_cast
          ring
        · have hnew : (s.step quota (Event.unit j)).sinks[i]? = some cnt := by
            rw [hsinks, List.getElem?_set, if_neg hij]
            exact hi
          obtain ⟨cnt2, hc1, hc2⟩ := hval i cnt hnew
          refine ⟨cnt2, hc1, ?_⟩
          rw [hc2, count_unit_cons_unit, if_neg hij]
          simp

/-- The countdown of length one. -/
theorem countdown_zero (b : Int) : countdown b 0 = [b] := by
  simp [countdown, List.range_succ]

/-- The invariant holds when a run starts. -/
theorem RunInv.start (quota : Int) (branches : Nat) (hQ : 0 ≤ quota) (hB : 1 ≤ branches) :
    RunInv quota branches (RunState.start branches) 0 := by
  refine ⟨?_, ?_, ?_, ?_, ?_⟩
  · show 0 + 0 = fired quota (List.replicate branches none)
    unfold fired
    rw [eq_comm, Nat.zero_add, List.countP_eq_zero]
    intro a ha
    rw [List.eq_of_mem_replicate ha]
    have hv : counter_value none = 0 := rfl
    simp only [hv, decide_eq_true_eq]
    omega
  · show some (branches : Int) = some ((branches : Int) - ((0 : Nat) : Int))
    simp
  · show [(branches : Int)] = countdown (branches : Int) 0
    rw [countdown_zero]
  · show Globals.init = _
    rw [if_neg (by omega)]
  · show (List.replicate branches (none : Option Int)).length = branches
    simp

/-- Unit counts bounded by `limit` for every branch put the start state within
budget. -/
theorem within_budget_start (limit : Int) (branches : Nat) (evs : List Event)
    (h : ∀ i : Nat, i < branches → ((evs.count (Event.unit i) : Nat) : Int) ≤ limit) :
    within_budget limit (RunState.start branches) evs := by
  intro i cnt hi
  have hi2 : (List.replicate branches (none : Option Int))[i]? = some cnt := hi
  rw [List.getElem?_replicate] at hi2
  by_cases hlt : i < branches
  · rw [if_pos hlt] at hi2
    cases hi2
    have hv : counter_value none = 0 := rfl
    rw [hv]
    exact ⟨le_refl 0, by have := h i hlt; omega⟩
  · rw [if_neg hlt] at hi2
    cases hi2

/-- Dispatching every pending check keeps the invariant and leaves none
pending. -/
theorem RunInv.drain {quota : Int} {branches : Nat} (hB : (branches : Int) ≤ 2147483647)
    (n : Nat) :
    ∀ (s : RunState) (d : Nat), RunInv quota branches s d → s.idle = n →
      RunInv quota branches (s.run quota (List.replicate n Event.dispatch)) (d + n) ∧
      (s.run quota (List.replicate n Event.dispatch)).idle = 0 ∧
      (s.run quota (List.replicate n Event.dispatch)).sinks = s.sinks := by
  induction n with
  | zero =>
    intro s d h hn
    exact ⟨h, hn, rfl⟩
  | succ n ih =>
    intro s d h hn
    have hrun : s.run quota (List.replicate (n + 1) Event.dispatch)
        = (s.step quota Event.dispatch).run quota (List.replicate n Event.dispatch) := rfl
    rw [hrun]
    obtain ⟨h1, h2, h3⟩ := RunInv.dispatch hB h (by omega)
    obtain ⟨k1, k2, k3⟩ := ih _ _ h1 (by omega)
    refine ⟨?_, k2, by rw [k3, h3]⟩
    have e : d + (n + 1) = d + 1 + n := by omega
    rw [e]
    exact k1

/-- The counters at the end of a run from the start state: every appsink
counter holds the number of units delivered to its branch. -/
theorem run_start_counters (quota : Int) (branches : Nat) (evs : List Event)
    (hQ0 : 0 ≤ quota) (hQ : quota + 1 ≤ 2147483647) (hB1 : 1 ≤ branches)
    (hB : (branches : Int) ≤ 2147483647)
    (h : ∀ i : Nat, i < branches → ((evs.count (Event.unit i) : Nat) : Int) ≤ quota + 1) :
    ∃ d : Nat, RunInv quota branches ((RunState.start branches).run quota evs) d ∧
      ∀ c ∈ ((RunState.start branches).run quota evs).sinks,
        ∃ i : Nat, i < branches ∧
          counter_value c = ((evs.count (Event.unit i) : Nat) : Int) := by
  obtain ⟨d, hinv, hval⟩ := RunInv.run hB hQ evs _ 0 (RunInv.start quota branches hQ0 hB1)
    (within_budget_start (quota + 1) branches evs h)
  refine ⟨d, hinv, fun c hc => ?_⟩
  obtain ⟨i, hi⟩ := List.mem_iff_getElem?.mp hc
  have hlt : i < branches := by
    obtain ⟨hl, _⟩ := List.getElem?_eq_some.mp hi
    rw [hinv.length_eq] at hl
    exact hl
  have hstart : (RunState.start branches).sinks[i]? = some none := by
    show (List.replicate branches (none : Option Int))[i]? = some none
    rw [List.getElem?_replicate, if_pos hlt]
  obtain ⟨c2, hc1, hc2⟩ := hval i none hstart
  rw [hi] at hc1
  cases hc1
  refine ⟨i, hlt, ?_⟩
  rw [hc2]
  have hv : counter_value none = 0 := rfl
  rw [hv, zero_add]

/-- No run in which every branch receives at most `quota` units completes:
whatever the interleaving of units and dispatches, no completion check is ever
scheduled or pending, the statics are untouched (the loop runs, no quit, no
error) and the remaining-branches counter still holds the branch count. -/
theorem run_within_quota_never_completes (quota : Int) (branches : Nat) (evs : List Event)
    (hQ0 : 0 ≤ quota) (hQ : quota + 1 ≤ 2147483647) (hB1 : 1 ≤ branches)
    (hB : (branches : Int) ≤ 2147483647)
    (h : ∀ i : Nat, i < branches → ((evs.count (Event.unit i) : Nat) : Int) ≤ quota) :
    ((RunState.start branches).run quota evs).drain quota
      = (RunState.start branches).run quota evs ∧
    ((RunState.start branches).run quota evs).idle = 0 ∧
    ((RunState.start branches).run quota evs).g = Globals.init ∧
    ((RunState.start branches).run quota evs).branches_count = some (branches : Int) ∧
    ((RunState.start branches).run quota evs).observed = [(branches : Int)] := by
  obtain ⟨d, hinv, hval⟩ := run_start_counters quota branches evs hQ0 hQ hB1 hB
    (fun i hi => by have := h i hi; omega)
  have hfired : fired quota ((RunState.start branches).run quota evs).sinks = 0 := by
    unfold fired
    rw [List.countP_eq_zero]
    intro c hc
    obtain ⟨i, hi, hv⟩ := hval c hc
    have := h i hi
    simp only [decide_eq_true_eq]
    omega
  have hi := hinv.idle_eq
  rw [hfired] at hi
  have hidle : ((RunState.start branches).run quota evs).idle = 0 := by omega
  have hd : d = 0 := by omega
  subst hd
  refine ⟨?_, hidle, ?_, ?_, ?_⟩
  · unfold RunState.drain
    rw [hidle]
    rfl
  · rw [hinv.g_eq, if_neg (by omega)]
  · rw [hinv.count_eq]
    simp
  · rw [hinv.observed_eq, countdown_zero]

/-- A run in which every branch receives exactly `quota + 1` units completes
once every pending check has been dispatched, whatever the interleaving: no
check is left pending, the loop has been asked to stop exactly once with the
error flag clear, and the remaining-branches counter has run through
`branches, ..., 1, 0`. -/
theorem run_completes_one_unit_after_quota (quota : Int) (branches : Nat) (evs : List Event)
    (hQ0 : 0 ≤ quota) (hQ : quota + 1 ≤ 2147483647) (hB1 : 1 ≤ branches)
    (hB : (branches : Int) ≤ 2147483647)
    (h : ∀ i : Nat, i < branches → ((evs.count (Event.unit i) : Nat) : Int) = quota + 1) :
    (((RunState.start branches).run quota evs).drain quota).idle = 0 ∧
    (((RunState.start branches).run quota evs).drain quota).g
      = { loop := { is_running := false, quit_calls := 1 }, error := 0 } ∧
    (((RunState.start branches).run quota evs).drain quota).branches_count = some 0 ∧
    (((RunState.start branches).run quota evs).drain quota).observed
      = countdown (branches : Int) branches := by
  obtain ⟨d, hinv, hval⟩ := run_start_counters quota branches evs hQ0 hQ hB1 hB
    (fun i hi => by have := h i hi; omega)
  have hfired : fired quota ((RunState.start branches).run quota evs).sinks = branches := by
    have hall : fired quota ((RunState.start branches).run quota evs).sinks
        = ((RunState.start branches).run quota evs).sinks.length := by
      unfold fired
      rw [List.countP_eq_length]
      intro c hc
      obtain ⟨i, hi, hv⟩ := hval c hc
      have := h i hi
      simp only [decide_eq_true_eq]
      omega
    rw [hall, hinv.length_eq]
  have hi := hinv.idle_eq
  rw [hfired] at hi
  obtain ⟨k1, k2, _⟩ := RunInv.drain hB _ _ d hinv rfl
  have hd : d + ((RunState.start branches).run quota evs).idle = branches := by omega
  rw [hd] at k1
  refine ⟨k2, ?_, ?_, ?_⟩
  · have := k1.g_eq
    rw [if_pos rfl] at this
    exact this
  · have := k1.count_eq
    rw [sub_self] at this
    exact this
  · exact k1.observed_eq

/-! ## C4: whole runs -/

/-- C4 (code evaluated at the failing inputs).  Scenario A (`B = 1`, `Q = 1`,
one unit) and scenario B (`B = 5`, `Q = 3`, three units for each branch, in
turn), every pending check dispatched afterwards: no check was ever scheduled,
the loop is still running, `g_main_loop_quit` was never called and the
remaining-branches counter still holds `B`, the only value it has taken.  One
more unit for each branch is what completes the run: then the counter runs
through `B, ..., 1, 0` and the loop is asked to stop once. -/
theorem run_with_quota_units_does_not_complete :
    ((RunState.start 1).run 1 [Event.unit 0]).drain 1
      = { g := Globals.init, branches_count := some 1, sinks := [some 1],
          idle := 0, observed := [1] } ∧
    ((RunState.start 5).run 3
        [Event.unit 0, Event.unit 1, Event.unit 2, Event.unit 3, Event.unit 4,
         Event.unit 0, Event.unit 1, Event.unit 2, Event.unit 3, Event.unit 4,
         Event.unit 0, Event.unit 1, Event.unit 2, Event.unit 3, Event.unit 4]).drain 3
      = { g := Globals.init, branches_count := some 5,
          sinks := [some 3, some 3, some 3, some 3, some 3],
          idle := 0, observed := [5] } ∧
    ((RunState.start 1).run 1 [Event.unit 0, Event.unit 0]).drain 1
      = { g := { loop := { is_running := false, quit_calls := 1 }, error := 0 },
          branches_count := some 0, sinks := [some 2],
          idle := 0, observed := [1, 0] } ∧
    ((RunState.start 5).run 3
        [Event.unit 0, Event.unit 1, Event.unit 2, Event.unit 3, Event.unit 4,
         Event.unit 0, Event.unit 1, Event.unit 2, Event.unit 3, Event.unit 4,
         Event.unit 0, Event.unit 1, Event.unit 2, Event.unit 3, Event.unit 4,
         Event.unit 0, Event.unit 1, Event.unit 2, Event.unit 3, Event.unit 4]).drain 3
      = { g := { loop := { is_running := false, quit_calls := 1 }, error := 0 },
          branches_count := some 0,
          sinks := [some 4, some 4, some 4, some 4, some 4],
          idle := 0, observed := [5, 4, 3, 2, 1, 0] } := by
  decide

/-! ## Instances -/

/-- Instance of `new_sample_step`: the counter at 20, the quota 20. -/
theorem new_sample_step_witness :
    new_sample 20 (some 20)
      = { count := some (20 + 1), scheduled := decide ((20 : Int) = 20),
          ret := GstFlowReturn.GST_FLOW_OK } :=
  new_sample_step 20 20 (by decide) (by decide)

/-- Instance of `connect_branch_without_tee`: a pipeline holding only the
source. -/
theorem connect_branch_without_tee_witness :
    connect_branch
        { children := [{ name := "audiotestsrc0", factory := "audiotestsrc" }],
          links := [], tee_pads := [], probes := [], serial := 1 }
        Globals.init
      = { pipeline :=
            { children := [{ name := "audiotestsrc0", factory := "audiotestsrc" }],
              links := [], tee_pads := [], probes := [], serial := 1 },
          g := { loop := Globals.init.loop, error := 1 },
          ret := G_SOURCE_REMOVE } :=
  connect_branch_without_tee _ _ (by decide)

/-- Instance of `run_within_quota_never_completes`: five branches, quota 3,
three units each. -/
theorem run_within_quota_never_completes_witness :
    ((RunState.start 5).run 3 three_rounds_of_five).drain 3
      = (RunState.start 5).run 3 three_rounds_of_five ∧
    ((RunState.start 5).run 3 three_rounds_of_five).idle = 0 ∧
    ((RunState.start 5).run 3 three_rounds_of_five).g = Globals.init ∧
    ((RunState.start 5).run 3 three_rounds_of_five).branches_count = some ((5 : Nat) : Int) ∧
    ((RunState.start 5).run 3 three_rounds_of_five).observed = [((5 : Nat) : Int)] :=
  run_within_quota_never_completes 3 5 three_rounds_of_five (by decide) (by decide)
    (by decide) (by decide) (by intro i hi; interval_cases i <;> decide)

/-- Instance of `run_completes_one_unit_after_quota`: five branches, quota 3,
four units each. -/
theorem run_completes_one_unit_after_quota_witness :
    (((RunState.start 5).run 3 four_rounds_of_five).drain 3).idle = 0 ∧
    (((RunState.start 5).run 3 four_rounds_of_five).drain 3).g
      = { loop := { is_running := false, quit_calls := 1 }, error := 0 } ∧
    (((RunState.start 5).run 3 four_rounds_of_five).drain 3).branches_count = some 0 ∧
    (((RunState.start 5).run 3 four_rounds_of_five).drain 3).observed
      = countdown ((5 : Nat) : Int) 5 :=
  run_completes_one_unit_after_quota 3 5 four_rounds_of_five (by decide) (by decide)
    (by decide) (by decide) (by intro i hi; interval_cases i <;> decide)

end TeeTest
